import Mathlib

/-!
Verification of the bricklayer live-reload asset viewer.

The development shallowly embeds the two C source files:
  * `src/path.c` — companion-texture path derivation, modelled at the level
    of individual heap-buffer byte writes so that allocation bounds and
    null-termination are visible;
  * `src/main.c` — CLI/stdin startup-path collection, the polling change
    detector (`get_most_recent_file_modification`), and the render loop's
    whole-collection reload step.

External collaborators (raylib's model/texture loaders, the filesystem) are
modelled as abstract maps following the spec's collaborator contracts:
`load_model(path) -> handle | failure`, `modification_time(path) ->
timestamp | absent`.  Repository helpers not present under `src/`
(`string_vector`, `model_vector`, `aseprite_texture`) are modelled from the
spec: the vectors as ordered sequences, the aseprite loader as
`load_texture(path) -> handle | failure` with absence being routine.
Resource identity is tracked by giving every successful renderer load a
fresh handle number.
-/

namespace Bricklayer

/-- The NUL byte, as a character. -/
def cnull : Char := Char.ofNat 0

/-- A heap allocation viewed as a list of bytes; an entry is `none` while the
byte is still uninitialized (fresh `malloc` memory). -/
abbrev Buf := List (Option Char)

/-- A single byte store `buf[i] = c`; `none` when the write would land outside
the allocation. -/
def bufStore (buf : Buf) (i : Nat) (c : Char) : Option Buf :=
  if i < buf.length then some (buf.set i (some c)) else none

/-- The call `memcpy(buf, src, strlen(src))` at offset 0; `none` when the copy
would overrun the allocation. -/
def bufMemcpy (buf : Buf) (src : List Char) : Option Buf :=
  if src.length ≤ buf.length then some (src.map some ++ buf.drop src.length)
  else none

/-- Write the bytes `cs` consecutively starting at offset `i`, each individual
write bounds-checked. -/
def bufWriteList : Buf → Nat → List Char → Option Buf
  | buf, _, [] => some buf
  | buf, i, c :: cs =>
    match bufStore buf i c with
    | some buf2 => bufWriteList buf2 (i + 1) cs
    | none => none

/-- The call `strlen(buf)`: scan from offset 0 for the first NUL byte; `none`
when the scan reads an uninitialized byte or runs off the allocation. -/
def bufStrlen : Buf → Option Nat
  | [] => none
  | none :: _ => none
  | some c :: rest => if c = cnull then some 0 else (bufStrlen rest).map (· + 1)

/-- The call `strcat(buf, s)`: find the current terminator, then append the
bytes of `s` followed by a NUL, every write bounds-checked. -/
def bufStrcat (buf : Buf) (s : List Char) : Option Buf :=
  match bufStrlen buf with
  | some n => bufWriteList buf n (s ++ [cnull])
  | none => none

/-- Read the C string stored at offset 0 of the buffer: the bytes up to the
first NUL; `none` when the read hits an uninitialized byte or the end of the
allocation first. -/
def bufReadCString : Buf → Option (List Char)
  | [] => none
  | none :: _ => none
  | some c :: rest =>
    if c = cnull then some [] else (bufReadCString rest).map (c :: ·)

/-- Outcome of `path_get_corresponding_texture_file`: the C function returns
either a NULL pointer, a freshly allocated string, or — were any buffer
operation to touch memory outside the allocation — undefined behaviour. -/
inductive PathResult where
  | nullPtr : PathResult
  | str : List Char → PathResult
  | oob : PathResult
deriving DecidableEq, Repr

/-- The fixed texture extension literal appended by `path.c`. -/
def asepriteLit : List Char := "aseprite".toList

/-- Embedding of `path_get_corresponding_texture_file` from `src/path.c`,
step for step: `length = strlen(src)`; return NULL when `length < 3`;
`target_length = length + 6`; `malloc(target_length)` (uninitialized bytes);
`memcpy(destination, src, length)`; `destination[target_length - 9] = 0`;
`strcat(destination, "aseprite")`; return the resulting string. -/
def path_get_corresponding_texture_file (src : List Char) : PathResult :=
  let length := src.length
  if length < 3 then .nullPtr
  else
    let target_length := length + 6
    match bufMemcpy (List.replicate target_length none) src with
    | none => .oob
    | some buf1 =>
      match bufStore buf1 (target_length - 9) cnull with
      | none => .oob
      | some buf2 =>
        match bufStrcat buf2 asepriteLit with
        | none => .oob
        | some buf3 =>
          match bufReadCString buf3 with
          | some s => .str s
          | none => .oob

/-- Stdin reading loop of `main` (`src/main.c`): one iteration per `fread` of
a single byte.  While bytes remain, a space flushes the token buffer into the
path list and anything else is stored at the unchecked write index
(`input[input_used++]`, capacity 1000; an out-of-bounds write is `none`).
When the stream is exhausted, `feof` is still false for one more iteration:
`fread` leaves `read_char` as `0`, which is not a space, so a final NUL byte
is appended to the buffer before the loop exits.  Returns the flushed tokens
and the final buffer contents. -/
def stdinLoop : List Char → List Char → Option (List (List Char) × List Char)
  | buf, [] => if buf.length < 1000 then some ([], buf ++ [cnull]) else none
  | buf, c :: rest =>
    if c = ' ' then (stdinLoop [] rest).map (fun r => (buf :: r.1, r.2))
    else if buf.length < 1000 then stdinLoop (buf ++ [c]) rest
    else none

/-- Paths collected from stdin by `main` when no CLI arguments are given:
run the reading loop, then — since `input_used > 0` holds after the loop —
append the remaining buffer with its last byte (the NUL from the final
`fread`) dropped (`stringvec_append(input, input_used - 1)`). -/
def read_paths_from_stdin (stream : List Char) : Option (List (List Char)) :=
  match stdinLoop [] stream with
  | none => none
  | some r =>
    if r.2.length > 0 then some (r.1 ++ [r.2.take (r.2.length - 1)])
    else some r.1

/-- Modelled from the spec: a character counts as whitespace for the purpose
of "whitespace-delimited" tokenization (space, tab, newline, carriage
return). -/
def char_is_space_like (c : Char) : Bool :=
  c = ' ' || c = '\t' || c = '\n' || c = '\r'

/-- Modelled from the spec: split a stream at every whitespace character,
keeping empty segments (helper for `whitespace_tokens`). -/
def split_any_ws : List Char → List Char → List (List Char)
  | buf, [] => [buf]
  | buf, c :: rest =>
    if char_is_space_like c then buf :: split_any_ws [] rest
    else split_any_ws (buf ++ [c]) rest

/-- Modelled from the spec: "the sequence of its whitespace-separated tokens,
in order" — the maximal runs of non-whitespace characters of the stream. -/
def whitespace_tokens (stream : List Char) : List (List Char) :=
  (split_any_ws [] stream).filter (fun t => !t.isEmpty)

/-- Split a stream at every space character (and only at spaces), keeping
empty segments; the segment after the final space is also kept.  This is the
tokenization `main.c` actually performs. -/
def split_spaces : List Char → List Char → List (List Char)
  | buf, [] => [buf]
  | buf, c :: rest =>
    if c = ' ' then buf :: split_spaces [] rest
    else split_spaces (buf ++ [c]) rest

/-- The space-only tokenization of a stream, empty segments included. -/
def space_delimited_tokens (stream : List Char) : List (List Char) :=
  split_spaces [] stream

/-- How `main` exits its startup phase: both error constructors correspond to
an `fprintf(stderr, ...)` followed by `return 1`, before any window or render
loop is created; `proceed` carries the collected model paths into the render
loop. -/
inductive StartupOutcome where
  | exitUnsupportedOption : StartupOutcome
  | exitNoModelFiles : StartupOutcome
  | proceed : List (List Char) → StartupOutcome
deriving DecidableEq

/-- The CLI-argument loop of `main`: arguments are appended in order to the
path list, but any argument whose first byte is a dash aborts with the
"Unsupported command-line option" error (`none` here). -/
def processArgs : List (List Char) → Option (List (List Char))
  | [] => some []
  | a :: rest =>
    if a.head? = some '-' then none else (processArgs rest).map (a :: ·)

/-- Startup phase of `main` (`src/main.c` up to window creation): collect
paths from the arguments; on zero collected paths, read them from stdin; if
the list is still empty, exit with the "No model files were supplied" error;
otherwise proceed into the render loop.  The outer `Option` is `none` exactly
when the stdin reader's unchecked buffer write goes out of bounds. -/
def startup (args : List (List Char)) (stdinStream : List Char) :
    Option StartupOutcome :=
  match processArgs args with
  | none => some .exitUnsupportedOption
  | some paths =>
    if paths.length = 0 then
      match read_paths_from_stdin stdinStream with
      | none => none
      | some ps =>
        if ps.length = 0 then some .exitNoModelFiles else some (.proceed ps)
    else some (.proceed paths)

/-- Metadata of one on-disk file: its `st_mtim.tv_sec` timestamp and an
abstract content value, `none` when the bytes at the path do not parse as a
model/texture (spec contract: `load_... -> handle | Failure`). -/
structure FileInfo where
  mtime : Nat
  content : Option Nat
deriving DecidableEq

/-- A filesystem snapshot: `none` at a path means `stat` fails there (spec
contract: `modification_time(path) -> Timestamp | Absent`). -/
def FS : Type := List Char → Option FileInfo

/-- Embedding of `file_last_modified` from `src/main.c`: a failing `stat`
yields 0, otherwise the file's modification time. -/
def file_last_modified (fs : FS) (p : List Char) : Nat :=
  match fs p with
  | none => 0
  | some fi => fi.mtime

/-- The companion texture path of a model path, as `main.c` consumes it: the
string returned by `path_get_corresponding_texture_file`, or `none` for the
NULL return (paths handed to the program are C strings, so the `oob` case
cannot arise; it is mapped to `none`). -/
def companionPathOf (p : List Char) : Option (List Char) :=
  match path_get_corresponding_texture_file p with
  | .str s => some s
  | _ => none

/-- A texture resource uploaded to the renderer: a fresh handle plus the
content it was created from.  Modelled from the spec contract
`load_texture(path) -> TextureHandle | Failure`. -/
structure TexRes where
  handle : Nat
  content : Nat
deriving DecidableEq

/-- A slot's model resource: a fresh handle, the geometry content (`none`
when `LoadModel` was given an unreadable/unparseable file and returned its
empty model), and the optionally attached diffuse texture. -/
structure ModelRes where
  handle : Nat
  content : Option Nat
  texture : Option TexRes
deriving DecidableEq

/-- The renderer's `LoadModel` call on a filesystem snapshot: always returns
a model struct consuming a fresh handle; its content is the file's content
when the file exists and parses, and empty otherwise.  Modelled from the spec
contract `load_model(path) -> ModelHandle | Failure` (raylib returns an empty
model on failure rather than aborting). -/
def loadModel (fs : FS) (p : List Char) (h : Nat) : ModelRes × Nat :=
  match fs p with
  | some fi => ({ handle := h, content := fi.content, texture := none }, h + 1)
  | none => ({ handle := h, content := none, texture := none }, h + 1)

/-- Embedding of `try_load_corresponding_texture` from `src/main.c`: with a
NULL path, or when the aseprite image cannot be loaded from the file, the
model is left untouched; on success a fresh texture is created and installed
as the model's diffuse map.  The aseprite loader itself is modelled from the
spec (`load_texture(path) -> handle | Failure`, absence routine). -/
def try_load_corresponding_texture (fs : FS) (tp : Option (List Char))
    (m : ModelRes) (h : Nat) : ModelRes × Nat :=
  match tp with
  | none => (m, h)
  | some p =>
    match fs p with
    | some fi =>
      match fi.content with
      | some c => ({ m with texture := some ⟨h, c⟩ }, h + 1)
      | none => (m, h)
    | none => (m, h)

/-- Embedding of `load_model_data_from_files` from `src/main.c`: for each
path in order, `LoadModel` it, derive the companion texture path, try to load
and attach that texture, and append the slot to the collection.  Threads the
fresh-handle counter through. -/
def load_model_data_from_files (fs : FS) :
    List (List Char) → Nat → List ModelRes × Nat
  | [], h => ([], h)
  | p :: rest, h =>
    let r1 := loadModel fs p h
    let r2 := try_load_corresponding_texture fs (companionPathOf p) r1.1 r1.2
    let r3 := load_model_data_from_files fs rest r2.2
    (r2.1 :: r3.1, r3.2)

/-- Accumulator loop of `get_most_recent_file_modification`: fold the maximum
of every watched path's modification time — each model path and, when the
companion path derivation succeeds, the companion path as well. -/
def gmrAux (fs : FS) : List (List Char) → Nat → Nat
  | [], acc => acc
  | p :: rest, acc =>
    let acc1 := Nat.max acc (file_last_modified fs p)
    match companionPathOf p with
    | none => gmrAux fs rest acc1
    | some tp => gmrAux fs rest (Nat.max acc1 (file_last_modified fs tp))

/-- Embedding of `get_most_recent_file_modification` from `src/main.c`: the
maximum modification time over all watched paths, starting from 0. -/
def get_most_recent_file_modification (fs : FS) (paths : List (List Char)) :
    Nat :=
  gmrAux fs paths 0

/-- The watched-path set of the detector: every model path and every
derivable companion path. -/
def watchedPaths : List (List Char) → List (List Char)
  | [] => []
  | p :: rest =>
    match companionPathOf p with
    | none => p :: watchedPaths rest
    | some tp => p :: tp :: watchedPaths rest

/-- The render loop's live-reload state: the recorded maximum modification
time, the slot collection, and the fresh-handle counter of the renderer
model. -/
structure LoopState where
  last_modified : Nat
  models : List ModelRes
  nextHandle : Nat
deriving DecidableEq

/-- Startup as `main` performs it before entering the render loop: record
the current maximum modification time, then load every slot once. -/
def startupState (fs : FS) (paths : List (List Char)) : LoopState :=
  let lm := get_most_recent_file_modification fs paths
  let r := load_model_data_from_files fs paths 0
  { last_modified := lm, models := r.1, nextHandle := r.2 }

/-- One polling check of the render loop (`src/main.c`, the
"Modified check if needed" block): recompute the maximum modification time
over the watched paths; if it strictly exceeds the recorded value, free the
whole model collection, reload every slot from the current filesystem, and
record the new maximum; otherwise leave the state untouched. -/
def detectionStep (paths : List (List Char)) (fs : FS) (s : LoopState) :
    LoopState :=
  let newLast := get_most_recent_file_modification fs paths
  if s.last_modified < newLast then
    let r := load_model_data_from_files fs paths s.nextHandle
    { last_modified := newLast, models := r.1, nextHandle := r.2 }
  else s

/-- The model content the loader would produce at a path of a snapshot. -/
def modelContentOf (fs : FS) (p : List Char) : Option Nat :=
  match fs p with
  | some fi => fi.content
  | none => none

/-- States of the render loop reachable from some startup, under arbitrary
filesystem evolution between polling checks. -/
inductive Reachable (paths : List (List Char)) : LoopState → Prop
  | startup (fs : FS) : Reachable paths (startupState fs paths)
  | step (fs : FS) {s : LoopState} :
      Reachable paths s → Reachable paths (detectionStep paths fs s)

/-- Filesystem snapshot for concrete scenarios: a single valid model file
"abc" (no companion texture on disk). -/
def fsOneValid : FS := fun p =>
  if p = "abc".toList then some ⟨100, some 7⟩ else none

/-- Like `fsOneValid`, but the model file has been rewritten later with
content that no longer parses (a transiently invalid file mid-write). -/
def fsOneBroken : FS := fun p =>
  if p = "abc".toList then some ⟨200, none⟩ else none

/-- Snapshot with a model file and a companion texture. -/
def fsStale0 : FS := fun p =>
  if p = "abc".toList then some ⟨100, some 1⟩
  else if p = "aseprite".toList then some ⟨50, some 2⟩
  else none

/-- Like `fsStale0`, but only the companion texture was rewritten: its
modification time increased from 50 to 60, still below the model file's
100. -/
def fsStale1 : FS := fun p =>
  if p = "abc".toList then some ⟨100, some 1⟩
  else if p = "aseprite".toList then some ⟨60, some 9⟩
  else none

/-- Snapshot with two model files, each with a companion texture. -/
def fsTwo0 : FS := fun p =>
  if p = "xobj".toList then some ⟨10, some 1⟩
  else if p = "xaseprite".toList then some ⟨10, some 2⟩
  else if p = "yobj".toList then some ⟨10, some 3⟩
  else if p = "yaseprite".toList then some ⟨10, some 4⟩
  else none

/-- Like `fsTwo0`, but only the second model file "yobj" was modified (its
modification time increased past the recorded maximum). -/
def fsTwo1 : FS := fun p =>
  if p = "xobj".toList then some ⟨10, some 1⟩
  else if p = "xaseprite".toList then some ⟨10, some 2⟩
  else if p = "yobj".toList then some ⟨20, some 5⟩
  else if p = "yaseprite".toList then some ⟨10, some 4⟩
  else none

/-- Concrete one-slot path list for scenarios. -/
def pathsOne : List (List Char) := ["abc".toList]

/-- Concrete two-slot path list for scenarios. -/
def pathsTwo : List (List Char) := ["xobj".toList, "yobj".toList]

/-! Helper lemmas about the buffer operations of `path.c`. -/

theorem set_append_cons (pre suf : Buf) (x c : Option Char) :
    (pre ++ x :: suf).set pre.length c = pre ++ c :: suf := by
  induction pre with
  | nil => rfl
  | cons p pre ih => simp [ih]

theorem bufStore_at_append (pre suf : Buf) (x : Option Char) (c : Char) :
    bufStore (pre ++ x :: suf) pre.length c = some (pre ++ some c :: suf) := by
  unfold bufStore
  rw [if_pos (by simp), set_append_cons]

theorem bufWriteList_append (cs : List Char) (pre mid : Buf)
    (h : cs.length ≤ mid.length) :
    bufWriteList (pre ++ mid) pre.length cs =
      some (pre ++ cs.map some ++ mid.drop cs.length) := by
  induction cs generalizing pre mid with
  | nil => simp [bufWriteList]
  | cons c cs ih =>
    cases mid with
    | nil => simp at h
    | cons m mid =>
      have h2 : cs.length ≤ mid.length := by simpa using h
      have e1 : pre ++ m :: mid = pre ++ [m] ++ mid := by simp
      have e2 : pre ++ some c :: mid = (pre ++ [some c]) ++ mid := by simp
      have e3 : pre.length + 1 = (pre ++ [some c]).length := by simp
      simp only [bufWriteList, bufStore_at_append pre mid m c, e2, e3,
        ih (pre ++ [some c]) mid h2]
      simp

theorem bufStrlen_clean (xs : List Char) (rest : Buf)
    (h : ∀ c ∈ xs, c ≠ cnull) :
    bufStrlen (xs.map some ++ some cnull :: rest) = some xs.length := by
  induction xs with
  | nil => simp [bufStrlen]
  | cons x xs ih =>
    have hx : x ≠ cnull := h x (by simp)
    have hxs := ih fun c hc => h c (by simp [hc])
    simp [bufStrlen, hx, hxs]

theorem bufReadCString_clean (xs : List Char) (rest : Buf)
    (h : ∀ c ∈ xs, c ≠ cnull) :
    bufReadCString (xs.map some ++ some cnull :: rest) = some xs := by
  induction xs with
  | nil => simp [bufReadCString]
  | cons x xs ih =>
    have hx : x ≠ cnull := h x (by simp)
    have hxs := ih fun c hc => h c (by simp [hc])
    simp [bufReadCString, hx, hxs]

theorem asepriteLit_length : asepriteLit.length = 8 := by decide

theorem asepriteLit_clean : ∀ c ∈ asepriteLit, c ≠ cnull := by decide

/-- The complete byte-level run of `path_get_corresponding_texture_file` on
an input decomposed as prefix plus exactly three final characters. -/
theorem path_texture_append (a : List Char) (b0 b1 b2 : Char)
    (hna : ∀ c ∈ a, c ≠ cnull) :
    path_get_corresponding_texture_file (a ++ [b0, b1, b2]) =
      .str (a ++ asepriteLit) := by
  have hcond : ¬((a ++ [b0, b1, b2]).length < 3) := by simp
  have hm : bufMemcpy (List.replicate ((a ++ [b0, b1, b2]).length + 6) none)
      (a ++ [b0, b1, b2]) =
      some ((a ++ [b0, b1, b2]).map some ++ List.replicate 6 none) := by
    unfold bufMemcpy
    rw [if_pos (by simp), List.drop_replicate]
    simp
  have hidx : (a ++ [b0, b1, b2]).length + 6 - 9 = (a.map some).length := by
    simp
  have hbuf1 : (a ++ [b0, b1, b2]).map some ++ List.replicate 6 none =
      a.map some ++ some b0 ::
        (some b1 :: some b2 :: List.replicate 6 none) := by
    simp
  have hst : bufStore
      ((a ++ [b0, b1, b2]).map some ++ List.replicate 6 none)
      ((a ++ [b0, b1, b2]).length + 6 - 9) cnull =
      some (a.map some ++ some cnull ::
        (some b1 :: some b2 :: List.replicate 6 none)) := by
    rw [hidx, hbuf1, bufStore_at_append]
  have hlen9 : (asepriteLit ++ [cnull]).length =
      (some cnull :: some b1 :: some b2 ::
        List.replicate 6 (none : Option Char)).length := by
    simp [asepriteLit_length]
  have hcat : bufStrcat (a.map some ++ some cnull ::
      (some b1 :: some b2 :: List.replicate 6 none)) asepriteLit =
      some ((a ++ asepriteLit).map some ++ some cnull :: []) := by
    have hw := bufWriteList_append (asepriteLit ++ [cnull]) (a.map some)
      (some cnull :: some b1 :: some b2 :: List.replicate 6 none)
      (le_of_eq hlen9)
    rw [hlen9, List.drop_length] at hw
    simp only [bufStrcat, bufStrlen_clean a _ hna]
    rw [show a.length = (List.map some a).length by simp, hw]
    simp
  have hread : bufReadCString ((a ++ asepriteLit).map some ++
      some cnull :: []) = some (a ++ asepriteLit) := by
    refine bufReadCString_clean _ _ fun c hc => ?_
    rcases List.mem_append.mp hc with h1 | h2
    · exact hna c h1
    · exact asepriteLit_clean c h2
  simp only [path_get_corresponding_texture_file, if_neg hcond, hm, hst,
    hcat, hread]

/-- Characterization of the companion-path function on inputs of length at
least three with no interior NUL bytes (the shape `strlen` guarantees): the
result is the input minus its final three characters, with the literal
"aseprite" appended. -/
theorem path_texture_spec (src : List Char) (h3 : 3 ≤ src.length)
    (hnz : ∀ c ∈ src, c ≠ cnull) :
    path_get_corresponding_texture_file src =
      .str (src.take (src.length - 3) ++ asepriteLit) := by
  obtain ⟨a, b, rfl, hb⟩ : ∃ a b, src = a ++ b ∧ b.length = 3 :=
    ⟨src.take (src.length - 3), src.drop (src.length - 3),
      (List.take_append_drop _ _).symm, by simp; omega⟩
  obtain ⟨b0, b1, b2, rfl⟩ := List.length_eq_three.mp hb
  have hna : ∀ c ∈ a, c ≠ cnull := fun c hc => hnz c (by simp [hc])
  have htake : (a ++ [b0, b1, b2]).take ((a ++ [b0, b1, b2]).length - 3)
      = a := by
    rw [show (a ++ [b0, b1, b2]).length - 3 = a.length by simp,
      List.take_left]
  rw [path_texture_append a b0 b1 b2 hna, htake]

/-- C5: for every input path of length `L ≥ 3`, the companion-path function
returns the first `L - 3` characters of the input followed by the literal
"aseprite"; everything before the final three characters is preserved, and
for `L = 3` the result is exactly "aseprite". -/
theorem companion_replaces_final_three (src : List Char)
    (h3 : 3 ≤ src.length) (hnz : ∀ c ∈ src, c ≠ cnull) :
    path_get_corresponding_texture_file src =
      .str (src.take (src.length - 3) ++ asepriteLit) :=
  path_texture_spec src h3 hnz

/-- Witness for C5 at the test suite's example path
"/path/to/somewhere/amodelname.obj". -/
theorem companion_replaces_final_three_witness :
    3 ≤ ("/path/to/somewhere/amodelname.obj".toList).length ∧
    path_get_corresponding_texture_file
        "/path/to/somewhere/amodelname.obj".toList =
      .str ("/path/to/somewhere/amodelname.obj".toList.take
        (("/path/to/somewhere/amodelname.obj".toList).length - 3) ++
        asepriteLit) :=
  ⟨by decide, companion_replaces_final_three _ (by decide) (by decide)⟩

/-- C6: for every input path of length less than three, the companion-path
function returns the NULL pointer — no crash and no undefined behaviour,
just "no texture available". -/
theorem companion_short_input_is_null (src : List Char)
    (h : src.length < 3) :
    path_get_corresponding_texture_file src = .nullPtr := by
  unfold path_get_corresponding_texture_file
  simp [h]

/-- Witness for C6 at the test suite's input "oj". -/
theorem companion_short_input_is_null_witness :
    ("oj".toList).length < 3 ∧
    path_get_corresponding_texture_file "oj".toList = .nullPtr :=
  ⟨by decide, companion_short_input_is_null _ (by decide)⟩

/-- C9: for every input of length `L ≥ 3`, the run of the companion-path
function performs every buffer write inside its allocation of exactly
`L + 6` bytes (the result is `.str _`, not the out-of-bounds marker
`.oob`), and the returned string is null-terminated with length exactly
`L + 5`. -/
theorem companion_buffer_writes_in_bounds (src : List Char)
    (h3 : 3 ≤ src.length) (hnz : ∀ c ∈ src, c ≠ cnull) :
    ∃ s, path_get_corresponding_texture_file src = .str s ∧
      s.length = src.length + 5 := by
  refine ⟨_, path_texture_spec src h3 hnz, ?_⟩
  simp [asepriteLit_length]
  omega

/-- Witness for C9 at the boundary input "obj". -/
theorem companion_buffer_writes_in_bounds_witness :
    3 ≤ ("obj".toList).length ∧
    ∃ s, path_get_corresponding_texture_file "obj".toList = .str s ∧
      s.length = ("obj".toList).length + 5 :=
  ⟨by decide, companion_buffer_writes_in_bounds _ (by decide) (by decide)⟩

/-! Lemmas about the stdin reading loop of `main.c`. -/

theorem split_spaces_head (s : List Char) : ∀ buf : List Char,
    ∃ t ts, split_spaces buf s = (buf ++ t) :: ts := by
  induction s with
  | nil => exact fun buf => ⟨[], [], by simp [split_spaces]⟩
  | cons c rest ih =>
    intro buf
    by_cases hc : c = ' '
    · exact ⟨[], split_spaces [] rest, by simp [split_spaces, hc]⟩
    · obtain ⟨t, ts, h⟩ := ih (buf ++ [c])
      exact ⟨c :: t, ts, by simp [split_spaces, hc, h]⟩

/-- As long as every space-delimited segment fits the 1000-byte token buffer
(the final one with room for the trailing NUL of the end-of-input iteration),
the reading loop succeeds and its flushed tokens plus de-NUL-ed final buffer
are exactly the space-split of the remaining stream. -/
theorem stdinLoop_ok (s : List Char) : ∀ buf : List Char,
    (∀ seg ∈ split_spaces buf s, seg.length ≤ 999) →
    ∃ toks fin, stdinLoop buf s = some (toks, fin) ∧ fin ≠ [] ∧
      toks ++ [fin.take (fin.length - 1)] = split_spaces buf s := by
  induction s with
  | nil =>
    intro buf h
    have hb : buf.length ≤ 999 := h buf (by simp [split_spaces])
    refine ⟨[], buf ++ [cnull], ?_, by simp, ?_⟩
    · simp only [stdinLoop]
      rw [if_pos (by omega)]
    · rw [show (buf ++ [cnull]).length - 1 = buf.length by simp,
        List.take_left]
      simp [split_spaces]
  | cons c rest ih =>
    intro buf h
    by_cases hc : c = ' '
    · subst hc
      obtain ⟨toks, fin, heq, hne, hcat⟩ := ih []
        (fun seg hseg => h seg (by simp [split_spaces]; exact Or.inr hseg))
      refine ⟨buf :: toks, fin, ?_, hne, ?_⟩
      · simp [stdinLoop, heq]
      · simp [split_spaces, hcat]
    · obtain ⟨t, ts, hhead⟩ := split_spaces_head (c :: rest) buf
      have hlt : buf.length < 1000 := by
        have := h (buf ++ t) (by rw [hhead]; simp)
        simp at this
        omega
      have hrw : split_spaces buf (c :: rest) =
          split_spaces (buf ++ [c]) rest := by
        simp [split_spaces, hc]
      obtain ⟨toks, fin, heq, hne, hcat⟩ := ih (buf ++ [c])
        (fun seg hseg => h seg (by rw [hrw]; exact hseg))
      refine ⟨toks, fin, ?_, hne, ?_⟩
      · simp [stdinLoop, hc, hlt, heq]
      · rw [hrw]
        exact hcat

/-- C7 amended: when no command-line paths are given, the path list read
from stdin equals the input stream split at every space character (0x20) and
only there — other whitespace stays inside tokens and consecutive or
trailing spaces (or an empty stream) produce empty tokens — provided every
such segment fits the 1000-byte token buffer. -/
theorem stdin_paths_are_space_tokens (stream : List Char)
    (hfit : ∀ seg ∈ space_delimited_tokens stream, seg.length ≤ 999) :
    read_paths_from_stdin stream = some (space_delimited_tokens stream) := by
  obtain ⟨toks, fin, heq, hne, hcat⟩ := stdinLoop_ok stream []
    (by simpa [space_delimited_tokens] using hfit)
  simp only [read_paths_from_stdin, heq]
  rw [if_pos (List.length_pos.mpr hne)]
  simp only [space_delimited_tokens]
  rw [hcat]

/-- Witness for amended C7 on the stream "a b". -/
theorem stdin_paths_are_space_tokens_witness :
    (∀ seg ∈ space_delimited_tokens "a b".toList, seg.length ≤ 999) ∧
    read_paths_from_stdin "a b".toList =
      some (space_delimited_tokens "a b".toList) :=
  ⟨by decide, stdin_paths_are_space_tokens _ (by decide)⟩

/-- Counterexample to C7 as stated: on the stream "a\nb" the program yields
the single path "a\nb" — the newline is kept inside the token — while the
sequence of whitespace-separated tokens of that stream is "a", "b"; so the
resulting path list is not the whitespace tokenization of the input. -/
theorem stdin_newline_kept_in_token :
    read_paths_from_stdin ['a', '\n', 'b'] = some [['a', '\n', 'b']] ∧
    whitespace_tokens ['a', '\n', 'b'] = [['a'], ['b']] ∧
    read_paths_from_stdin ['a', '\n', 'b'] ≠
      some (whitespace_tokens ['a', '\n', 'b']) := by decide

theorem stdinLoop_overflow (n : Nat) : ∀ buf : List Char,
    1000 ≤ buf.length + n →
    stdinLoop buf (List.replicate n 'a') = none := by
  induction n with
  | zero =>
    intro buf h
    rw [List.replicate_zero]
    simp only [stdinLoop]
    rw [if_neg (by omega)]
  | succ n ih =>
    intro buf h
    rw [List.replicate_succ]
    simp only [stdinLoop]
    rw [if_neg (by decide : ¬(('a' : Char) = ' '))]
    by_cases hlt : buf.length < 1000
    · rw [if_pos hlt]
      exact ih (buf ++ ['a']) (by simp; omega)
    · rw [if_neg hlt]

/-- C10: the stdin token buffer is 1000 bytes with an unchecked write index,
and the out-of-bounds write is reachable — on a stream consisting of a token
of 1000 non-space characters before end-of-input, the end-of-input
iteration's NUL store lands at index 1000, one past the allocation, so the
embedded parser reports the out-of-bounds write. -/
theorem stdin_buffer_overflow_reachable :
    read_paths_from_stdin (List.replicate 1000 'a') = none := by
  have h := stdinLoop_overflow 1000 [] (by simp)
  simp only [read_paths_from_stdin, h]

/-! Startup configuration errors. -/

theorem processArgs_dash (args : List (List Char))
    (h : ∃ a ∈ args, a.head? = some '-') : processArgs args = none := by
  induction args with
  | nil => simp at h
  | cons a rest ih =>
    obtain ⟨x, hx, hdash⟩ := h
    simp only [processArgs]
    by_cases ha : a.head? = some '-'
    · rw [if_pos ha]
    · rw [if_neg ha]
      rcases List.mem_cons.mp hx with rfl | hmem
      · exact absurd hdash ha
      · rw [ih ⟨x, hmem, hdash⟩]
        rfl

/-- C8: on a configuration error — an argument beginning with a dash (no
flag is recognized in this generation), or zero collected model paths after
argument and stdin processing — `main` writes an error to standard error and
returns 1 before any window or render loop is created. -/
theorem startup_config_error (args : List (List Char))
    (stdinStream : List Char)
    (h : (∃ a ∈ args, a.head? = some '-') ∨
      (args = [] ∧ read_paths_from_stdin stdinStream = some [])) :
    startup args stdinStream = some .exitUnsupportedOption ∨
      startup args stdinStream = some .exitNoModelFiles := by
  rcases h with hdash | ⟨rfl, hstdin⟩
  · left
    simp only [startup, processArgs_dash args hdash]
  · right
    simp [startup, processArgs, hstdin]

/-- Witness for C8: a single unsupported flag argument. -/
theorem startup_config_error_witness :
    (∃ a ∈ [['-', 'x']], a.head? = some '-') ∧
    (startup [['-', 'x']] [] = some .exitUnsupportedOption ∨
      startup [['-', 'x']] [] = some .exitNoModelFiles) :=
  ⟨⟨['-', 'x'], by simp, rfl⟩,
    startup_config_error _ _ (Or.inl ⟨['-', 'x'], by simp, rfl⟩)⟩

/-! The polling change detector and the whole-collection reload. -/

theorem gmrAux_congr (fs₀ fs₁ : FS) :
    ∀ (paths : List (List Char)) (acc : Nat),
    (∀ p ∈ watchedPaths paths, fs₁ p = fs₀ p) →
    gmrAux fs₁ paths acc = gmrAux fs₀ paths acc := by
  intro paths
  induction paths with
  | nil => intro acc _; rfl
  | cons p rest ih =>
    intro acc hagree
    cases hcp : companionPathOf p with
    | none =>
      have hw : watchedPaths (p :: rest) = p :: watchedPaths rest := by
        simp [watchedPaths, hcp]
      rw [hw] at hagree
      have hflm : file_last_modified fs₁ p = file_last_modified fs₀ p := by
        unfold file_last_modified
        rw [hagree p (by simp)]
      simp only [gmrAux, hcp, hflm]
      exact ih _ fun q hq => hagree q (by simp [hq])
    | some tp =>
      have hw : watchedPaths (p :: rest) = p :: tp :: watchedPaths rest := by
        simp [watchedPaths, hcp]
      rw [hw] at hagree
      have hflm : file_last_modified fs₁ p = file_last_modified fs₀ p := by
        unfold file_last_modified
        rw [hagree p (by simp)]
      have hflmt : file_last_modified fs₁ tp = file_last_modified fs₀ tp := by
        unfold file_last_modified
        rw [hagree tp (by simp)]
      simp only [gmrAux, hcp, hflm, hflmt]
      exact ih _ fun q hq => hagree q (by simp [hq])

/-- C4: at a polling check where no watched file's modification time has
changed since the check that recorded `last_modified`, no reload occurs and
the loop state — every slot's model and texture resource included — is left
exactly as it was (handle identity preserved). -/
theorem no_change_no_reload (paths : List (List Char)) (fs₀ fs₁ : FS)
    (s : LoopState)
    (hlast : s.last_modified = get_most_recent_file_modification fs₀ paths)
    (hagree : ∀ p ∈ watchedPaths paths, fs₁ p = fs₀ p) :
    detectionStep paths fs₁ s = s := by
  have h : get_most_recent_file_modification fs₁ paths =
      get_most_recent_file_modification fs₀ paths :=
    gmrAux_congr fs₀ fs₁ paths 0 hagree
  unfold detectionStep
  rw [h, if_neg (by omega)]

/-- Witness for C4: polling the unchanged snapshot right after startup. -/
theorem no_change_no_reload_witness :
    detectionStep pathsOne fsOneValid (startupState fsOneValid pathsOne) =
      startupState fsOneValid pathsOne :=
  no_change_no_reload pathsOne fsOneValid fsOneValid _ rfl fun _ _ => rfl

/-- C3 amended: a reload is performed at a polling check exactly when the
maximum modification time over all watched paths strictly exceeds the single
recorded value; the reload then frees and reloads the whole collection and
records the new maximum.  A per-path mtime increase that does not raise the
global maximum triggers nothing. -/
theorem reload_on_recorded_max_increase (paths : List (List Char)) (fs : FS)
    (s : LoopState)
    (hgt : s.last_modified < get_most_recent_file_modification fs paths) :
    detectionStep paths fs s =
      { last_modified := get_most_recent_file_modification fs paths,
        models := (load_model_data_from_files fs paths s.nextHandle).1,
        nextHandle := (load_model_data_from_files fs paths s.nextHandle).2 } := by
  unfold detectionStep
  rw [if_pos hgt]

/-- Witness for amended C3: the model file's mtime rises from 100 to 200. -/
theorem reload_on_recorded_max_increase_witness :
    ((startupState fsOneValid pathsOne).last_modified <
      get_most_recent_file_modification fsOneBroken pathsOne) ∧
    detectionStep pathsOne fsOneBroken (startupState fsOneValid pathsOne) =
      { last_modified := get_most_recent_file_modification fsOneBroken pathsOne,
        models := (load_model_data_from_files fsOneBroken pathsOne
          (startupState fsOneValid pathsOne).nextHandle).1,
        nextHandle := (load_model_data_from_files fsOneBroken pathsOne
          (startupState fsOneValid pathsOne).nextHandle).2 } :=
  ⟨by decide, reload_on_recorded_max_increase _ _ _ (by decide)⟩

/-- Counterexample to C3 as stated: the companion texture's modification
time increases (50 to 60) — a watched path changed — but stays below the
recorded global maximum 100, so the check reloads nothing: the state is
untouched. -/
theorem stale_companion_no_reload :
    file_last_modified fsStale0 "aseprite".toList <
      file_last_modified fsStale1 "aseprite".toList ∧
    (∀ p ∈ watchedPaths pathsOne, p ≠ "aseprite".toList →
      fsStale1 p = fsStale0 p) ∧
    detectionStep pathsOne fsStale1 (startupState fsStale0 pathsOne) =
      startupState fsStale0 pathsOne := by decide

/-- Counterexample to C1: the single slot is valid after startup (content
7); the watched file is then rewritten mid-write so it no longer parses; the
next check triggers (mtime 200 > 100), frees the whole collection and
reloads, and the slot ends up with the loader's empty model — the
previously valid resource is not retained. -/
theorem failed_reload_leaves_empty_slot :
    (startupState fsOneValid pathsOne).models.map ModelRes.content =
      [some 7] ∧
    (detectionStep pathsOne fsOneBroken
        (startupState fsOneValid pathsOne)).models.map ModelRes.content =
      [none] := by decide

/-- C1 amended: every reachable state's slot collection is exactly the
whole-collection load from a single filesystem snapshot (the most recent
startup or triggered reload); a slot therefore holds a valid model resource
exactly when that snapshot parsed at its path, and a reload whose load step
fails leaves the slot with the loader's empty result rather than the
previously valid resource. -/
theorem reachable_slots_single_load (paths : List (List Char))
    (s : LoopState) (h : Reachable paths s) :
    ∃ fs h0, s.models = (load_model_data_from_files fs paths h0).1 := by
  induction h with
  | startup fs => exact ⟨fs, 0, rfl⟩
  | @step fs s hr ih =>
    by_cases hc : s.last_modified < get_most_recent_file_modification fs paths
    · refine ⟨fs, s.nextHandle, ?_⟩
      unfold detectionStep
      rw [if_pos hc]
    · obtain ⟨fs0, h0, hm⟩ := ih
      refine ⟨fs0, h0, ?_⟩
      unfold detectionStep
      rw [if_neg hc]
      exact hm

/-- Witness for amended C1 at the startup state itself. -/
theorem reachable_slots_single_load_witness :
    ∃ fs h0, (startupState fsOneValid pathsOne).models =
      (load_model_data_from_files fs pathsOne h0).1 :=
  reachable_slots_single_load _ _ (Reachable.startup fsOneValid)

theorem try_load_content (fs : FS) (tp : Option (List Char)) (m : ModelRes)
    (h : Nat) :
    (try_load_corresponding_texture fs tp m h).1.content = m.content := by
  cases tp with
  | none => rfl
  | some p =>
    cases hfp : fs p with
    | none => simp [try_load_corresponding_texture, hfp]
    | some fi =>
      cases hfc : fi.content with
      | none => simp [try_load_corresponding_texture, hfp, hfc]
      | some c => simp [try_load_corresponding_texture, hfp, hfc]

theorem loadModel_content (fs : FS) (p : List Char) (h : Nat) :
    (loadModel fs p h).1.content = modelContentOf fs p := by
  unfold loadModel modelContentOf
  cases hfp : fs p <;> rfl

theorem load_content_get? (fs : FS) :
    ∀ (paths : List (List Char)) (h i : Nat),
    ((load_model_data_from_files fs paths h).1.get? i).map ModelRes.content =
      (paths.get? i).map (modelContentOf fs) := by
  intro paths
  induction paths with
  | nil => intro h i; simp [load_model_data_from_files]
  | cons p rest ih =>
    intro h i
    cases i with
    | zero =>
      simp only [load_model_data_from_files, List.get?, Option.map_some]
      simp [try_load_content, loadModel_content]
    | succ n =>
      simp only [load_model_data_from_files, List.get?]
      exact ih _ n

/-- C2 amended: once a watched file's modification time rises above the
recorded global maximum, the next polling check frees and reloads the whole
collection: the resulting slots are exactly a fresh load of every path from
the current snapshot — so slot `i`'s model now reflects the file's current
content, but no slot's model or texture handle survives (all resources are
newly loaded). -/
theorem reload_replaces_whole_collection (paths : List (List Char))
    (fs : FS) (s : LoopState) (i : Nat)
    (hgt : s.last_modified < get_most_recent_file_modification fs paths) :
    (detectionStep paths fs s).models =
      (load_model_data_from_files fs paths s.nextHandle).1 ∧
    ((detectionStep paths fs s).models.get? i).map ModelRes.content =
      (paths.get? i).map (modelContentOf fs) := by
  have hstep : (detectionStep paths fs s).models =
      (load_model_data_from_files fs paths s.nextHandle).1 := by
    unfold detectionStep
    rw [if_pos hgt]
  exact ⟨hstep, by rw [hstep, load_content_get?]⟩

/-- Witness for amended C2: two slots, the second model file touched. -/
theorem reload_replaces_whole_collection_witness :
    ((startupState fsTwo0 pathsTwo).last_modified <
      get_most_recent_file_modification fsTwo1 pathsTwo) ∧
    ((detectionStep pathsTwo fsTwo1 (startupState fsTwo0 pathsTwo)).models =
      (load_model_data_from_files fsTwo1 pathsTwo
        (startupState fsTwo0 pathsTwo).nextHandle).1 ∧
    ((detectionStep pathsTwo fsTwo1
        (startupState fsTwo0 pathsTwo)).models.get? 1).map ModelRes.content =
      (pathsTwo.get? 1).map (modelContentOf fsTwo1)) :=
  ⟨by decide, reload_replaces_whole_collection _ _ _ 1 (by decide)⟩

/-- Counterexample to C2 as stated: only the second model file "yobj" is
modified (its mtime rises 10 to 20; every other watched path is unchanged),
yet the next check hands out fresh handles to both slots' models (0, 2
become 4, 6) and both slots' textures (1, 3 become 5, 7): slot 0's
resources and slot 1's texture handle do not survive. -/
theorem touch_one_file_reloads_all :
    (∀ p ∈ watchedPaths pathsTwo, p ≠ "yobj".toList →
      fsTwo1 p = fsTwo0 p) ∧
    file_last_modified fsTwo0 "yobj".toList <
      file_last_modified fsTwo1 "yobj".toList ∧
    (startupState fsTwo0 pathsTwo).models.map ModelRes.handle = [0, 2] ∧
    (detectionStep pathsTwo fsTwo1
        (startupState fsTwo0 pathsTwo)).models.map ModelRes.handle =
      [4, 6] ∧
    (startupState fsTwo0 pathsTwo).models.map ModelRes.texture =
      [some ⟨1, 2⟩, some ⟨3, 4⟩] ∧
    (detectionStep pathsTwo fsTwo1
        (startupState fsTwo0 pathsTwo)).models.map ModelRes.texture =
      [some ⟨5, 2⟩, some ⟨7, 4⟩] := by decide

end Bricklayer
